import Mathlib

/-!
Verification of the conversational-response selection engine
(server/src/engine/conversationEngine.ts and server/src/services/llmService.ts).

Scores are JavaScript numbers; every score arising here is a finite sum and
product of small literals, so we embed them as rationals (Rat), which agrees
with IEEE semantics on all concrete inputs used below.

The natural-language tokenizer and the TfIdf index come from the external
`natural` npm package, outside this repository.  The tokenizer is modelled
from the spec (lowercased word splitting on non-word characters); the TfIdf
similarity is kept abstract as a function parameter `tf : String → Nat → Rat`
giving the measure of a query against the document at a given position,
exactly the value the engine reads in its `tfidfs` callback.
-/

namespace Chatbot

/-- ConversationNode from server/src/types/conversation.ts.  Optional array
fields are embedded as lists, absent meaning the empty list, which the
engine treats identically (the guards `if (node.triggers)` etc. only skip
empty work).  `priority` keeps its optionality because JavaScript truthiness
of the number matters (a priority of 0 is falsy and is not applied). -/
structure ConversationNode where
  id : String
  responses : List String
  triggers : List String
  keywords : List String
  context : List String
  nextNodes : List String
  priority : Option Rat
  deriving Repr, DecidableEq

/-- Topic record from server/src/types/conversation.ts. -/
structure Topic where
  id : String
  name : String
  description : String
  keywords : List String
  nodes : List String
  deriving Repr, DecidableEq

/-- Message from server/src/types/conversation.ts.  Timestamps are not
modelled (no claim reads them).  An absent `usedFallback` is falsy in the
code, so it is embedded as `false`. -/
structure Message where
  role : String
  content : String
  nodeId : Option String
  usedFallback : Bool
  deriving Repr, DecidableEq

/-- ConversationState from server/src/types/conversation.ts.  The
`context : Map<string, any>` is read by the engine only through `has`, and
written only with `set(key, ...)`; it is embedded as the list of keys
present, in insertion order.  The value stored under `lastSentiment` (an
external sentiment lexicon score) is therefore not modelled, only the
presence of the key. -/
structure ConversationState where
  sessionId : String
  currentNode : String
  visitedNodes : List String
  conversationHistory : List Message
  context : List String
  topicsDiscussed : List String
  deriving Repr, DecidableEq

/-- MatchResult from server/src/types/conversation.ts. -/
structure MatchResult where
  node : ConversationNode
  score : Rat
  usedFallback : Bool
  deriving Repr, DecidableEq

/-- LLMService state (server/src/services/llmService.ts): whether the Groq
client was constructed, and the mutable `enabled` flag. -/
structure LLMService where
  hasGroq : Bool
  enabled : Bool
  deriving Repr, DecidableEq

/-- LLMService constructor: `enabled` comes from the environment flag; the
client is built only when the flag is set and an API key is present; an
enabled flag without a key clears `enabled`. -/
def LLMService.init (envEnabled hasApiKey : Bool) : LLMService :=
  if envEnabled && hasApiKey then { hasGroq := true, enabled := true }
  else if envEnabled && !hasApiKey then { hasGroq := false, enabled := false }
  else { hasGroq := false, enabled := envEnabled }

/-- LLMService.isEnabled: `this.enabled && this.groq !== null`. -/
def LLMService.isEnabled (s : LLMService) : Bool :=
  s.enabled && s.hasGroq

/-- Outcome of one call to the remote generator
(LLMService.generateResponse), which classifies every failure as one of
invalid credential (401), rate limited (429), or unavailable before
rethrowing.  The outcome is an oracle parameter of a turn. -/
inductive LLMOutcome where
  | success (reply : String)
  | invalidCredential
  | rateLimited
  | unavailable
  deriving Repr, DecidableEq

/-- Engine state: static data, the per-session map (insertion-ordered
association list, as a JavaScript Map), the confidence threshold and the
LLM service. -/
structure Engine where
  nodes : List ConversationNode
  topics : List Topic
  sessions : List (String × ConversationState)
  confidenceThreshold : Rat
  llm : LLMService
  deriving Repr, DecidableEq

/-! ### String primitives.  JavaScript strings are embedded as their
character lists; all operations are structurally recursive. -/

/-- Does the second list start the first one. -/
def startsWithChars : List Char → List Char → Bool
  | _, [] => true
  | [], _ :: _ => false
  | c :: cs, p :: ps => (c = p) && startsWithChars cs ps

/-- Naive substring containment on character lists. -/
def containsChars (pat : List Char) : List Char → Bool
  | [] => pat.isEmpty
  | c :: cs => startsWithChars (c :: cs) pat || containsChars pat cs

/-- JavaScript `s.includes(sub)` on character lists. -/
def includesL (s sub : List Char) : Bool :=
  containsChars sub s

/-- JavaScript `s.toLowerCase()` (ASCII case mapping suffices for the
content of this repository). -/
def lowerChars (s : String) : List Char :=
  s.toList.map Char.toLower

/-- JavaScript `String.split` against a character predicate: the pieces
between separator characters, empty pieces kept. -/
def splitList (p : Char → Bool) : List Char → List (List Char)
  | [] => [[]]
  | c :: cs =>
    match splitList p cs with
    | [] => [[]]
    | piece :: rest => if p c then [] :: piece :: rest else (c :: piece) :: rest

/-- Modelled from the spec: the `natural` WordTokenizer (external library)
splits the text on non-word characters and discards empty pieces
(lowercased word splitting; the engine lowercases before tokenizing). -/
def tokenizeChars (s : List Char) : List (List Char) :=
  (splitList (fun c => !(c.isAlphanum || c = '_')) s).filter (fun t => !t.isEmpty)

/-- JavaScript `list.slice(-n)`: the last `n` elements. -/
def lastN {α : Type} (n : Nat) (l : List α) : List α :=
  l.drop (l.length - n)

/-- Row 0 of the edit-distance matrix: `matrix[0][j] = j` for `j = 0..n`. -/
def levFirstRow : Nat → List Nat
  | 0 => [0]
  | n + 1 => levFirstRow n ++ [n + 1]

/-- Inner loop of getEditDistance: the cells `matrix[i][1..]` of one row,
given the characters of `str1`, the character `str2[i-1]`, the tail of the
previous row starting at the diagonal cell, and the cell to the left. -/
def levCells (c2 : Char) : List Char → List Nat → Nat → List Nat
  | [], _, _ => []
  | _ :: _, [], _ => []
  | c1 :: cs, diag :: prevRest, left =>
    let up := prevRest.headD 0
    let cell := if c2 = c1 then diag else 1 + min diag (min left up)
    cell :: levCells c2 cs prevRest cell

/-- Outer loop of getEditDistance: fold the rows over the characters of
`str2`; `rowIdx` is the index of the previous row. -/
def levRows (s1 : List Char) : List Char → List Nat → Nat → List Nat
  | [], prev, _ => prev
  | c2 :: rest, prev, rowIdx =>
    levRows s1 rest ((rowIdx + 1) :: levCells c2 s1 prev (rowIdx + 1)) (rowIdx + 1)

/-- getEditDistance: the dynamic-programming matrix over rows indexed by
`str2` and columns indexed by `str1`, returning
`matrix[str2.length][str1.length]` (the last cell of the last row). -/
def getEditDistance (str1 str2 : List Char) : Nat :=
  (levRows str1 str2 (levFirstRow str1.length) 0).getLastD 0

/-- calculateSimilarity: `(longer.length - editDistance) / longer.length`,
with ties on length making `str2` the longer one, and 1.0 on two empty
strings. -/
def calculateSimilarity (str1 str2 : List Char) : Rat :=
  let longer := if str1.length > str2.length then str1 else str2
  let shorter := if str1.length > str2.length then str2 else str1
  if longer.length = 0 then 1
  else ((longer.length : Rat) - (getEditDistance longer shorter : Rat)) / (longer.length : Rat)

/-! ### Candidate scorer (ConversationEngine.findBestNodeWithScore) -/

/-- Trigger component: +20 for a trigger phrase contained in the message,
else +10 when some word of the trigger longer than 3 characters appears in
the message. -/
def triggerScore (userMessage : String) (node : ConversationNode) : Rat :=
  (node.triggers.map (fun trigger =>
    let triggerLower := lowerChars trigger
    let messageLower := lowerChars userMessage
    if includesL messageLower triggerLower then (20 : Rat)
    else if (splitList (fun c => c = ' ') triggerLower).any
        (fun word => includesL messageLower word && word.length > 3) then (10 : Rat)
    else 0)).sum

/-- Keyword component: +7 per keyword matched by some message token longer
than 2 characters, by containment either way or by similarity above 0.7. -/
def keywordScore (userMessage : String) (node : ConversationNode) : Rat :=
  let tokens := tokenizeChars (lowerChars userMessage)
  (node.keywords.map (fun keyword =>
    let keywordLower := lowerChars keyword
    if tokens.any (fun token =>
        token.length > 2 && (includesL keywordLower token
          || includesL token keywordLower
          || calculateSimilarity token keywordLower > (7 : Rat) / 10)) then (7 : Rat)
    else 0)).sum

/-- Context component: +5 per context flag of the node already set in the
session. -/
def contextScore (session : ConversationState) (node : ConversationNode) : Rat :=
  (node.context.map (fun contextKey =>
    if session.context.contains contextKey then (5 : Rat) else 0)).sum

/-- TF-IDF component: the measure at this document position times 15, added
only when positive. -/
def tfidfScore (tf : String → Nat → Rat) (userMessage : String) (index : Nat) : Rat :=
  let measure := tf userMessage index
  if 0 < measure then measure * 15 else 0

/-- Flow component: +6 when the node is a declared successor of the
current node of the session (the lookup is skipped when `currentNode` is
falsy, i.e. the empty string). -/
def flowBonus (nodes : List ConversationNode) (session : ConversationState)
    (node : ConversationNode) : Rat :=
  if session.currentNode = "" then 0
  else
    match nodes.find? (fun n => n.id == session.currentNode) with
    | some currentNode => if currentNode.nextNodes.contains node.id then 6 else 0
    | none => 0

/-- The additive part of the score of one node. -/
def baseScore (tf : String → Nat → Rat) (nodes : List ConversationNode)
    (userMessage : String) (session : ConversationState)
    (node : ConversationNode) (index : Nat) : Rat :=
  triggerScore userMessage node + keywordScore userMessage node
    + contextScore session node + tfidfScore tf userMessage index
    + flowBonus nodes session node

/-- Priority multiplier: applied only when present and nonzero (a zero
priority is falsy in JavaScript). -/
def applyPriority (node : ConversationNode) (score : Rat) : Rat :=
  match node.priority with
  | some p => if p = 0 then score else score * p
  | none => score

/-- Recency damping: times 0.7 when the node is among the last 3 visited. -/
def applyRecency (visitedNodes : List String) (node : ConversationNode) (score : Rat) : Rat :=
  if (lastN 3 visitedNodes).contains node.id then score * ((7 : Rat) / 10) else score

/-- Default-node suppression: times 0.1 when the default node scored above
zero. -/
def applyDefaultDamp (node : ConversationNode) (score : Rat) : Rat :=
  if node.id = "default" ∧ 0 < score then score * ((1 : Rat) / 10) else score

/-- Full score of one node, in source order: additive components, then
priority, then recency, then default suppression. -/
def scoreNode (tf : String → Nat → Rat) (nodes : List ConversationNode)
    (userMessage : String) (session : ConversationState)
    (node : ConversationNode) (index : Nat) : Rat :=
  applyDefaultDamp node
    (applyRecency session.visitedNodes node
      (applyPriority node (baseScore tf nodes userMessage session node index)))

/-- Placeholder for `this.data.nodes[this.data.nodes.length - 1]` on an
empty node list (the engine is only run on the nonempty static content). -/
def dummyNode : ConversationNode :=
  { id := "", responses := [], triggers := [], keywords := [], context := [],
    nextNodes := [], priority := none }

/-- The forEach accumulation: keep the running best, replacing it exactly
when a node scores strictly above it. -/
def findBestAux (f : Nat → ConversationNode → Rat) :
    Nat → List ConversationNode → ConversationNode × Rat → ConversationNode × Rat
  | _, [], acc => acc
  | i, n :: rest, (bestMatch, bestScore) =>
    let score := f i n
    if bestScore < score then findBestAux f (i + 1) rest (n, score)
    else findBestAux f (i + 1) rest (bestMatch, bestScore)

/-- ConversationEngine.findBestNodeWithScore: iterate all nodes starting
from the last node (the default) at score 0. -/
def findBestNodeWithScore (tf : String → Nat → Rat) (nodes : List ConversationNode)
    (userMessage : String) (session : ConversationState) : MatchResult :=
  let best := findBestAux (fun i n => scoreNode tf nodes userMessage session n i)
    0 nodes (nodes.getLastD dummyNode, 0)
  { node := best.1, score := best.2, usedFallback := false }

/-! ### Sessions and turn processing (ConversationEngine) -/

/-- createSession: the fresh per-session state. -/
def createSessionState (sessionId : String) : ConversationState :=
  { sessionId := sessionId, currentNode := "greeting", visitedNodes := [],
    conversationHistory := [], context := [], topicsDiscussed := [] }

/-- `Map.set`: replace the value at an existing key in place, otherwise
append the new binding. -/
def setSession : List (String × ConversationState) → String → ConversationState →
    List (String × ConversationState)
  | [], sessionId, s => [(sessionId, s)]
  | (k, v) :: rest, sessionId, s =>
    if k == sessionId then (sessionId, s) :: rest
    else (k, v) :: setSession rest sessionId s

/-- ConversationEngine.getSession. -/
def Engine.getSession (e : Engine) (sessionId : String) : Option ConversationState :=
  e.sessions.lookup sessionId

/-- ConversationEngine.createSession: build a fresh state and store it. -/
def Engine.createSession (e : Engine) (sessionId : String) : ConversationState × Engine :=
  let s := createSessionState sessionId
  (s, { e with sessions := setSession e.sessions sessionId s })

/-- ConversationEngine.resetSession: delete the session, then create a
fresh one under the same identifier. -/
def Engine.resetSession (e : Engine) (sessionId : String) : ConversationState × Engine :=
  Engine.createSession { e with sessions := e.sessions.filter (fun p => !(p.1 == sessionId)) }
    sessionId

/-- The last 3 assistant replies of the session (filter the bot messages,
slice the last 3, project the content). -/
def recentBotReplies (session : ConversationState) : List String :=
  (lastN 3 (session.conversationHistory.filter (fun msg => msg.role == "bot"))).map
    (fun msg => msg.content)

/-- ConversationEngine.selectResponse.  `Math.floor(Math.random() * len)`
is a uniform index below the length of the selected pool; the draw is made
explicit as the parameter `rand`, reduced modulo the pool size. -/
def selectResponse (node : ConversationNode) (session : ConversationState) (rand : Nat) : String :=
  let responses := node.responses
  let recentResponses := recentBotReplies session
  let availableResponses := responses.filter (fun resp => !(recentResponses.contains resp))
  let selectedResponses := if availableResponses.length > 0 then availableResponses else responses
  selectedResponses.getD (rand % selectedResponses.length) ""

/-- Insert a key into the context map (`Map.set` with a fresh key appends;
setting an existing key leaves the key set unchanged). -/
def insertKey (l : List String) (k : String) : List String :=
  if l.contains k then l else l ++ [k]

/-- ConversationEngine.updateContext: set every context flag of the node,
record the first topic covering the node if new, and store the sentiment of
the user message under `lastSentiment` (the sentiment value comes from an
external lexicon and only the presence of the key is observable by the
scorer, so only the key is modelled). -/
def updateContext (topics : List Topic) (session : ConversationState)
    (node : ConversationNode) : ConversationState :=
  let ctx := node.context.foldl insertKey session.context
  let discussed :=
    match topics.find? (fun topic => topic.nodes.contains node.id) with
    | some topic =>
      if session.topicsDiscussed.contains topic.id then session.topicsDiscussed
      else session.topicsDiscussed ++ [topic.id]
    | none => session.topicsDiscussed
  { session with context := insertKey ctx "lastSentiment", topicsDiscussed := discussed }

/-- The session a turn works on: the stored session (or a freshly created
one), with the user message appended to the history before scoring. -/
def turnSession (e : Engine) (sessionId userMessage : String) : ConversationState :=
  let session :=
    match e.getSession sessionId with
    | some s => s
    | none => createSessionState sessionId
  { session with conversationHistory := session.conversationHistory ++
      [{ role := "user", content := userMessage, nodeId := none, usedFallback := false }] }

/-- Result of one turn: the reply, the new engine state, and whether the
remote generator was invoked on this turn. -/
structure TurnOutput where
  response : String
  engine : Engine
  llmCalled : Bool
  deriving Repr, DecidableEq

/-- ConversationEngine.processMessage.  The remote call outcome is the
oracle parameter `llmOutcome`; `rand` is the random draw of
selectResponse.  On the remote path a success stores the reply with
`usedFallback := true`; any failure is caught and answered from the
already-computed local winner with `usedFallback` still false (the flag is
assigned only after the await returns).  Only the local branch updates
`currentNode`, the visited list and the context. -/
def processMessage (e : Engine) (tf : String → Nat → Rat) (sessionId userMessage : String)
    (llmOutcome : LLMOutcome) (rand : Nat) : TurnOutput :=
  let session := turnSession e sessionId userMessage
  let matchResult := findBestNodeWithScore tf e.nodes userMessage session
  if matchResult.score < e.confidenceThreshold ∧ e.llm.isEnabled = true then
    match llmOutcome with
    | .success reply =>
      let botMsg : Message :=
        { role := "bot", content := reply, nodeId := some "llm-fallback", usedFallback := true }
      let session := { session with conversationHistory := session.conversationHistory ++ [botMsg] }
      { response := reply,
        engine := { e with sessions := setSession e.sessions sessionId session },
        llmCalled := true }
    | _ =>
      let response := selectResponse matchResult.node session rand
      let botMsg : Message :=
        { role := "bot", content := response, nodeId := some matchResult.node.id,
          usedFallback := false }
      let session := { session with conversationHistory := session.conversationHistory ++ [botMsg] }
      { response := response,
        engine := { e with sessions := setSession e.sessions sessionId session },
        llmCalled := true }
  else
    let session :=
      { session with
        currentNode := matchResult.node.id,
        visitedNodes :=
          if !(session.visitedNodes.contains matchResult.node.id) then
            session.visitedNodes ++ [matchResult.node.id]
          else session.visitedNodes }
    let session := updateContext e.topics session matchResult.node
    let response := selectResponse matchResult.node session rand
    let botMsg : Message :=
      { role := "bot", content := response, nodeId := some matchResult.node.id,
        usedFallback := false }
    let session := { session with conversationHistory := session.conversationHistory ++ [botMsg] }
    { response := response,
      engine := { e with sessions := setSession e.sessions sessionId session },
      llmCalled := false }

/-- ConversationEngine.getConversationHistory. -/
def getConversationHistory (e : Engine) (sessionId : String) : List Message :=
  match e.getSession sessionId with
  | some s => s.conversationHistory
  | none => []

/-- ConversationEngine.getTopicsDiscussed. -/
def getTopicsDiscussed (e : Engine) (sessionId : String) : List Topic :=
  match e.getSession sessionId with
  | some s => e.topics.filter (fun topic => s.topicsDiscussed.contains topic.id)
  | none => []

/-- A sequence of turns against one session: message, remote oracle
outcome and random draw per turn. -/
def runTurns (tf : String → Nat → Rat) (sessionId : String) :
    Engine → List (String × LLMOutcome × Nat) → Engine
  | e, [] => e
  | e, (msg, llm, rand) :: rest =>
    runTurns tf sessionId (processMessage e tf sessionId msg llm rand).engine rest

/-! ### Concrete fixtures used by witnesses and counterexamples -/

/-- An all-zero lexical index measure, as for a query sharing no term with
any document. -/
def tfZero : String → Nat → Rat := fun _ _ => 0

def greetNode : ConversationNode :=
  { id := "greeting", responses := ["hello there", "welcome brother"],
    triggers := ["hello", "hi"], keywords := ["greet"], context := [],
    nextNodes := ["life"], priority := none }

def lifeNode : ConversationNode :=
  { id := "life", responses := ["my life story"],
    triggers := ["tell me about your life"], keywords := [], context := ["greeted"],
    nextNodes := [], priority := none }

def defaultNode : ConversationNode :=
  { id := "default", responses := ["could you say more"], triggers := [],
    keywords := [], context := [], nextNodes := [], priority := none }

def demoNodes : List ConversationNode := [greetNode, lifeNode, defaultNode]

/-- A fresh session whose current node is not a node of the list, so that
no flow bonus can fire. -/
def noFlowSession : ConversationState :=
  { sessionId := "s", currentNode := "nobody", visitedNodes := [],
    conversationHistory := [], context := [], topicsDiscussed := [] }

/-- C5 counterexample: a session state holding a context flag required by
a unit makes that unit score 5 on the empty user message, so the winner is
not the default unit.  The claim fails because context-flag (and
flow-continuity) bonuses survive an empty message. -/
def meccaNode : ConversationNode :=
  { id := "mecca", responses := ["the hajj changed me"], triggers := ["mecca"],
    keywords := [], context := ["mecca_flag"], nextNodes := [], priority := none }

def c5Nodes : List ConversationNode := [meccaNode, defaultNode]

def c5Session : ConversationState :=
  { sessionId := "s", currentNode := "greeting", visitedNodes := [],
    conversationHistory := [], context := ["mecca_flag"], topicsDiscussed := [] }

def c6Node : ConversationNode :=
  { id := "w", responses := ["rw"], triggers := ["hello"], keywords := [],
    context := [], nextNodes := [], priority := none }

def c6Session : ConversationState :=
  { sessionId := "s", currentNode := "nobody", visitedNodes := ["w"],
    conversationHistory := [], context := [], topicsDiscussed := [] }


def demoTopic : Topic :=
  { id := "t-life", name := "Life", description := "biography", keywords := [],
    nodes := ["greeting", "life"] }

/-- LLM service as constructed with the enabled flag set and an API key
present. -/
def llmOn : LLMService := { hasGroq := true, enabled := true }

/-- LLM service as constructed with the fallback disabled. -/
def llmOff : LLMService := { hasGroq := false, enabled := false }

/-- Engine with a threshold high enough that every local match is below
it, so the remote path is always chosen. -/
def eRemote : Engine :=
  { nodes := demoNodes, topics := [demoTopic], sessions := [],
    confidenceThreshold := 100, llm := llmOn }

/-- Session that has already visited the greeting unit. -/
def c7Session : ConversationState :=
  { sessionId := "s", currentNode := "nobody", visitedNodes := ["greeting"],
    conversationHistory := [], context := [], topicsDiscussed := [] }

/-- Engine on the local path (remote disabled) whose stored session has
already visited the unit that the message "hello" wins. -/
def eLocal : Engine :=
  { nodes := demoNodes, topics := [demoTopic], sessions := [("s", c7Session)],
    confidenceThreshold := 3, llm := llmOff }

/-- A session whose history already shows one of the two greeting replies
as the latest assistant reply. -/
def c8Session : ConversationState :=
  { sessionId := "s", currentNode := "greeting", visitedNodes := ["greeting"],
    conversationHistory :=
      [{ role := "user", content := "hello", nodeId := none, usedFallback := false },
        { role := "bot", content := "hello there", nodeId := some "greeting",
          usedFallback := false }],
    context := [], topicsDiscussed := [] }

/-! ### Properties of the candidate scorer fold -/

/-- Invariant of the forEach accumulation: either no node beat the seed
(the accumulator is returned and every score is bounded by the seed), or
the result is the first node attaining the maximal score, which strictly
exceeds the seed, bounds every score, and strictly exceeds every score
before it. -/
lemma findBestAux_spec (f : Nat → ConversationNode → Rat) (l : List ConversationNode) :
    ∀ (i : Nat) (bm : ConversationNode) (bs : Rat),
      (findBestAux f i l (bm, bs) = (bm, bs) ∧
        ∀ j (hj : j < l.length), f (i + j) (l.get ⟨j, hj⟩) ≤ bs) ∨
      (∃ j, ∃ hj : j < l.length,
        findBestAux f i l (bm, bs) = (l.get ⟨j, hj⟩, f (i + j) (l.get ⟨j, hj⟩)) ∧
        bs < f (i + j) (l.get ⟨j, hj⟩) ∧
        (∀ k (hk : k < l.length), f (i + k) (l.get ⟨k, hk⟩) ≤ f (i + j) (l.get ⟨j, hj⟩)) ∧
        (∀ k (hk : k < l.length), k < j →
          f (i + k) (l.get ⟨k, hk⟩) < f (i + j) (l.get ⟨j, hj⟩))) := by
  induction l with
  | nil =>
    intro i bm bs
    exact Or.inl ⟨rfl, fun j hj => absurd hj (Nat.not_lt_zero j)⟩
  | cons n rest ih =>
    intro i bm bs
    by_cases h : bs < f i n
    · have heq : findBestAux f i (n :: rest) (bm, bs) = findBestAux f (i + 1) rest (n, f i n) := by
        simp [findBestAux, h]
      rcases ih (i + 1) n (f i n) with ⟨hres, hall⟩ | ⟨j, hj, hres, hlt, hub, hfirst⟩
      · refine Or.inr ⟨0, Nat.succ_pos _, ?_, ?_, ?_, ?_⟩
        · rw [heq, hres]; simp
        · simpa using h
        · intro k hk
          cases k with
          | zero => simp
          | succ k =>
            have hk' : k < rest.length := Nat.lt_of_succ_lt_succ hk
            have harith : i + (k + 1) = (i + 1) + k := by omega
            simpa [harith] using hall k hk'
        · intro k hk hk0
          exact absurd hk0 (Nat.not_lt_zero k)
      · refine Or.inr ⟨j + 1, Nat.succ_lt_succ hj, ?_, ?_, ?_, ?_⟩
        · have harith : i + (j + 1) = (i + 1) + j := by omega
          rw [heq, hres]; simp [harith]
        · have harith : i + (j + 1) = (i + 1) + j := by omega
          have := lt_trans h hlt
          simpa [harith] using this
        · intro k hk
          cases k with
          | zero =>
            have harith : i + (j + 1) = (i + 1) + j := by omega
            simpa [harith] using le_of_lt hlt
          | succ k =>
            have hk' : k < rest.length := Nat.lt_of_succ_lt_succ hk
            have ha1 : i + (k + 1) = (i + 1) + k := by omega
            have ha2 : i + (j + 1) = (i + 1) + j := by omega
            simpa [ha1, ha2] using hub k hk'
        · intro k hk hkj
          cases k with
          | zero =>
            have harith : i + (j + 1) = (i + 1) + j := by omega
            simpa [harith] using hlt
          | succ k =>
            have hk' : k < rest.length := Nat.lt_of_succ_lt_succ hk
            have hkj' : k < j := Nat.lt_of_succ_lt_succ hkj
            have ha1 : i + (k + 1) = (i + 1) + k := by omega
            have ha2 : i + (j + 1) = (i + 1) + j := by omega
            simpa [ha1, ha2] using hfirst k hk' hkj'
    · have heq : findBestAux f i (n :: rest) (bm, bs) = findBestAux f (i + 1) rest (bm, bs) := by
        simp [findBestAux, h]
      have hle : f i n ≤ bs := le_of_not_lt h
      rcases ih (i + 1) bm bs with ⟨hres, hall⟩ | ⟨j, hj, hres, hlt, hub, hfirst⟩
      · refine Or.inl ⟨by rw [heq, hres], ?_⟩
        intro k hk
        cases k with
        | zero => simpa using hle
        | succ k =>
          have hk' : k < rest.length := Nat.lt_of_succ_lt_succ hk
          have ha1 : i + (k + 1) = (i + 1) + k := by omega
          simpa [ha1] using hall k hk'
      · refine Or.inr ⟨j + 1, Nat.succ_lt_succ hj, ?_, ?_, ?_, ?_⟩
        · have ha2 : i + (j + 1) = (i + 1) + j := by omega
          rw [heq, hres]; simp [ha2]
        · have ha2 : i + (j + 1) = (i + 1) + j := by omega
          simpa [ha2] using hlt
        · intro k hk
          cases k with
          | zero =>
            have ha2 : i + (j + 1) = (i + 1) + j := by omega
            simpa [ha2] using le_of_lt (lt_of_le_of_lt hle hlt)
          | succ k =>
            have hk' : k < rest.length := Nat.lt_of_succ_lt_succ hk
            have ha1 : i + (k + 1) = (i + 1) + k := by omega
            have ha2 : i + (j + 1) = (i + 1) + j := by omega
            simpa [ha1, ha2] using hub k hk'
        · intro k hk hkj
          cases k with
          | zero =>
            have ha2 : i + (j + 1) = (i + 1) + j := by omega
            simpa [ha2] using lt_of_le_of_lt hle hlt
          | succ k =>
            have hk' : k < rest.length := Nat.lt_of_succ_lt_succ hk
            have hkj' : k < j := Nat.lt_of_succ_lt_succ hkj
            have ha1 : i + (k + 1) = (i + 1) + k := by omega
            have ha2 : i + (j + 1) = (i + 1) + j := by omega
            simpa [ha1, ha2] using hfirst k hk' hkj'

/-- C1: findBestNodeWithScore returns the unit with the strictly highest
final score; on ties the first-encountered unit (in unit-list order) is
kept, i.e. whenever the best score is positive the winner is the first
node attaining it and every earlier node scores strictly below it; and
when every unit scores zero the returned unit is the last node of the unit
list (the distinguished default unit of the content) with score 0. -/
theorem findBest_selects_first_max (tf : String → Nat → Rat)
    (nodes : List ConversationNode) (userMessage : String) (session : ConversationState)
    (hne : nodes ≠ []) :
    (∀ j (hj : j < nodes.length),
      scoreNode tf nodes userMessage session (nodes.get ⟨j, hj⟩) j ≤
        (findBestNodeWithScore tf nodes userMessage session).score) ∧
    (0 < (findBestNodeWithScore tf nodes userMessage session).score →
      ∃ j, ∃ hj : j < nodes.length,
        (findBestNodeWithScore tf nodes userMessage session).node = nodes.get ⟨j, hj⟩ ∧
        scoreNode tf nodes userMessage session (nodes.get ⟨j, hj⟩) j =
          (findBestNodeWithScore tf nodes userMessage session).score ∧
        ∀ k (hk : k < nodes.length), k < j →
          scoreNode tf nodes userMessage session (nodes.get ⟨k, hk⟩) k <
            (findBestNodeWithScore tf nodes userMessage session).score) ∧
    ((∀ j (hj : j < nodes.length),
        scoreNode tf nodes userMessage session (nodes.get ⟨j, hj⟩) j = 0) →
      (findBestNodeWithScore tf nodes userMessage session).node = nodes.getLast hne ∧
      (findBestNodeWithScore tf nodes userMessage session).score = 0) := by
  have hgl : nodes.getLastD dummyNode = nodes.getLast hne := by
    rw [List.getLastD_eq_getLast?, List.getLast?_eq_getLast nodes hne]
    rfl
  have hmain := findBestAux_spec
    (fun i n => scoreNode tf nodes userMessage session n i) nodes 0 (nodes.getLastD dummyNode) 0
  have hnode : (findBestNodeWithScore tf nodes userMessage session).node =
      (findBestAux (fun i n => scoreNode tf nodes userMessage session n i)
        0 nodes (nodes.getLastD dummyNode, 0)).1 := rfl
  have hscore : (findBestNodeWithScore tf nodes userMessage session).score =
      (findBestAux (fun i n => scoreNode tf nodes userMessage session n i)
        0 nodes (nodes.getLastD dummyNode, 0)).2 := rfl
  rcases hmain with ⟨hres, hall⟩ | ⟨j, hj, hres, hlt, hub, hfirst⟩
  · refine ⟨?_, ?_, ?_⟩
    · intro k hk
      rw [hscore, hres]
      simpa using hall k hk
    · intro hpos
      rw [hscore, hres] at hpos
      exact absurd hpos (lt_irrefl 0)
    · intro _
      rw [hnode, hscore, hres, hgl]
      exact ⟨rfl, rfl⟩
  · refine ⟨?_, ?_, ?_⟩
    · intro k hk
      rw [hscore, hres]
      simpa using hub k hk
    · intro _
      refine ⟨j, hj, ?_, ?_, ?_⟩
      · rw [hnode, hres]
      · rw [hscore, hres]
        simp
      · intro k hk hkj
        rw [hscore, hres]
        simpa using hfirst k hk hkj
    · intro hzero
      have h1 := hzero j hj
      have hlt' : (0 : Rat) < scoreNode tf nodes userMessage session (nodes.get ⟨j, hj⟩) j := by
        simpa using hlt
      rw [h1] at hlt'
      exact absurd hlt' (lt_irrefl 0)

/-- Witness for C1: on the empty message against a flagless session every
unit of `demoNodes` scores zero, and the selector indeed returns the last
(default) node with score 0. -/
theorem findBest_selects_first_max_witness :
    (findBestNodeWithScore tfZero demoNodes "" noFlowSession).node =
      demoNodes.getLast (by with_unfolding_all decide) ∧
    (findBestNodeWithScore tfZero demoNodes "" noFlowSession).score = 0 :=
  (findBest_selects_first_max tfZero demoNodes "" noFlowSession
    (by with_unfolding_all decide)).2.2 (by with_unfolding_all decide)

/-! ### Scoring the empty message (C5) -/

lemma includesL_nil (w : List Char) : includesL [] w = w.isEmpty := rfl

/-- The trigger component of the empty message vanishes as soon as no
trigger lowercases to the empty string (an empty trigger would be a
substring of anything, including the empty message). -/
lemma triggerScore_empty (node : ConversationNode)
    (htrig : ∀ t ∈ node.triggers, lowerChars t ≠ []) :
    triggerScore "" node = 0 := by
  unfold triggerScore
  apply List.sum_eq_zero
  intro x hx
  rw [List.mem_map] at hx
  obtain ⟨t, ht, rfl⟩ := hx
  have h1 : includesL (lowerChars "") (lowerChars t) = false := by
    rw [show lowerChars "" = [] from rfl, includesL_nil]
    cases h : (lowerChars t).isEmpty
    · rfl
    · exact absurd (List.isEmpty_iff.mp h) (htrig t ht)
  have h2 : ∀ w, (includesL (lowerChars "") w && w.length > 3) = false := by
    intro w
    rw [show lowerChars "" = [] from rfl, includesL_nil]
    cases w
    · rfl
    · rfl
  simp only [h1, Bool.false_eq_true, if_false]
  rw [if_neg]
  intro hany
  rw [List.any_eq_true] at hany
  obtain ⟨w, _, hw⟩ := hany
  rw [h2 w] at hw
  exact Bool.false_ne_true hw

/-- The keyword component of the empty message always vanishes: there are
no tokens. -/
lemma keywordScore_empty (node : ConversationNode) : keywordScore "" node = 0 := by
  unfold keywordScore
  apply List.sum_eq_zero
  intro x hx
  rw [List.mem_map] at hx
  obtain ⟨k, _, rfl⟩ := hx
  rw [show tokenizeChars (lowerChars "") = [] from rfl]
  simp

/-- The context component vanishes on a session with no context flags. -/
lemma contextScore_empty_context (session : ConversationState) (node : ConversationNode)
    (hctx : session.context = []) : contextScore session node = 0 := by
  unfold contextScore
  apply List.sum_eq_zero
  intro x hx
  rw [List.mem_map] at hx
  obtain ⟨k, _, rfl⟩ := hx
  rw [hctx]
  simp

/-- The lexical component vanishes when the measure is not positive. -/
lemma tfidfScore_nonpos (tf : String → Nat → Rat) (msg : String) (i : Nat)
    (htf : tf msg i ≤ 0) : tfidfScore tf msg i = 0 := by
  unfold tfidfScore
  rw [if_neg]
  exact not_lt.mpr htf

/-- The flow component vanishes when the current node resolves to a node
without successors (or to no node at all). -/
lemma flowBonus_no_successors (nodes : List ConversationNode) (session : ConversationState)
    (node : ConversationNode)
    (hflow : ((nodes.find? (fun n => n.id == session.currentNode)).all
      (fun cur => cur.nextNodes.isEmpty)) = true) :
    flowBonus nodes session node = 0 := by
  unfold flowBonus
  by_cases hcur : session.currentNode = ""
  · rw [if_pos hcur]
  · rw [if_neg hcur]
    cases hfind : nodes.find? (fun n => n.id == session.currentNode) with
    | none => rfl
    | some cur =>
      rw [hfind] at hflow
      have hnil : cur.nextNodes = [] := List.isEmpty_iff.mp (by simpa using hflow)
      show (if cur.nextNodes.contains node.id = true then (6 : Rat) else 0) = 0
      rw [hnil]
      simp

lemma applyPriority_zero (node : ConversationNode) : applyPriority node 0 = 0 := by
  unfold applyPriority
  cases node.priority with
  | none => rfl
  | some p => by_cases hp : p = 0 <;> simp [hp]

lemma applyRecency_zero (visited : List String) (node : ConversationNode) :
    applyRecency visited node 0 = 0 := by
  unfold applyRecency
  by_cases h : (lastN 3 visited).contains node.id <;> simp [h]

lemma applyDefaultDamp_zero (node : ConversationNode) : applyDefaultDamp node 0 = 0 := by
  unfold applyDefaultDamp
  rw [if_neg]
  intro ⟨_, h⟩
  exact absurd h (lt_irrefl 0)

/-- When every node scores zero the fold returns the seed: the last node
at score 0. -/
lemma findBest_of_all_zero (tf : String → Nat → Rat) (nodes : List ConversationNode)
    (msg : String) (session : ConversationState)
    (h : ∀ j (hj : j < nodes.length),
      scoreNode tf nodes msg session (nodes.get ⟨j, hj⟩) j = 0) :
    findBestNodeWithScore tf nodes msg session =
      { node := nodes.getLastD dummyNode, score := 0, usedFallback := false } := by
  rcases findBestAux_spec (fun i n => scoreNode tf nodes msg session n i) nodes 0
    (nodes.getLastD dummyNode) 0 with ⟨hres, _⟩ | ⟨j, hj, _, hlt, _, _⟩
  · simp only [findBestNodeWithScore]
    rw [hres]
  · have h1 := h j hj
    have hlt' : (0 : Rat) < scoreNode tf nodes msg session (nodes.get ⟨j, hj⟩) j := by
      simpa using hlt
    rw [h1] at hlt'
    exact absurd hlt' (lt_irrefl 0)

/-- C5 counterexample: under a session with a set context flag, the empty
message selects the flagged unit with score 5 and not the last (default)
unit, refuting the claim that the default unit always wins the empty
message. -/
theorem emptyMessage_default_counterexample :
    (findBestNodeWithScore tfZero c5Nodes "" c5Session).node.id = "mecca" ∧
    (findBestNodeWithScore tfZero c5Nodes "" c5Session).score = 5 ∧
    (c5Nodes.getLastD dummyNode).id = "default" := by
  with_unfolding_all decide

/-- C5 amended: on the empty message the trigger, keyword and fuzzy-match
bonuses are all zero (given that no trigger lowercases to the empty
string); and when additionally the session carries no context flags, the
current unit has no successors, and the lexical index gives the empty
message no positive measure, every unit scores zero and the default (last)
unit is selected with score 0. -/
theorem emptyMessage_amended (tf : String → Nat → Rat) (nodes : List ConversationNode)
    (session : ConversationState) (hne : nodes ≠ [])
    (htrig : ∀ n ∈ nodes, ∀ t ∈ n.triggers, lowerChars t ≠ [])
    (hctx : session.context = [])
    (hflow : ((nodes.find? (fun n => n.id == session.currentNode)).all
      (fun cur => cur.nextNodes.isEmpty)) = true)
    (htf : ∀ i, tf "" i ≤ 0) :
    (∀ n ∈ nodes, triggerScore "" n = 0 ∧ keywordScore "" n = 0) ∧
    (findBestNodeWithScore tf nodes "" session).node = nodes.getLast hne ∧
    (findBestNodeWithScore tf nodes "" session).score = 0 := by
  have hzero : ∀ j (hj : j < nodes.length),
      scoreNode tf nodes "" session (nodes.get ⟨j, hj⟩) j = 0 := by
    intro j hj
    have hmem : nodes.get ⟨j, hj⟩ ∈ nodes := List.get_mem nodes j hj
    have hbase : baseScore tf nodes "" session (nodes.get ⟨j, hj⟩) j = 0 := by
      unfold baseScore
      rw [triggerScore_empty _ (htrig _ hmem), keywordScore_empty,
        contextScore_empty_context session _ hctx, tfidfScore_nonpos tf "" j (htf j),
        flowBonus_no_successors nodes session _ hflow]
      norm_num
    unfold scoreNode
    rw [hbase, applyPriority_zero, applyRecency_zero, applyDefaultDamp_zero]
  have hfin := findBest_of_all_zero tf nodes "" session hzero
  have hgl : nodes.getLastD dummyNode = nodes.getLast hne := by
    rw [List.getLastD_eq_getLast?, List.getLast?_eq_getLast nodes hne]
    rfl
  refine ⟨?_, ?_, ?_⟩
  · intro n hn
    exact ⟨triggerScore_empty n (htrig n hn), keywordScore_empty n⟩
  · rw [hfin, ← hgl]
  · rw [hfin]

/-- Witness for the amended C5 at a concrete input: the demo content with
a flagless session selects the default node on the empty message. -/
theorem emptyMessage_amended_witness :
    (∀ n ∈ demoNodes, triggerScore "" n = 0 ∧ keywordScore "" n = 0) ∧
    (findBestNodeWithScore tfZero demoNodes "" noFlowSession).node =
      demoNodes.getLast (by with_unfolding_all decide) ∧
    (findBestNodeWithScore tfZero demoNodes "" noFlowSession).score = 0 :=
  emptyMessage_amended tfZero demoNodes noFlowSession (by with_unfolding_all decide)
    (by with_unfolding_all decide) (by with_unfolding_all decide)
    (by with_unfolding_all decide) (fun i => le_refl 0)

/-! ### Recency damping (C6) -/

lemma triggerScore_nonneg (msg : String) (node : ConversationNode) :
    0 ≤ triggerScore msg node := by
  unfold triggerScore
  apply List.sum_nonneg
  intro x hx
  rw [List.mem_map] at hx
  obtain ⟨t, _, rfl⟩ := hx
  dsimp only
  split
  · norm_num
  · split
    · norm_num
    · exact le_refl 0

lemma keywordScore_nonneg (msg : String) (node : ConversationNode) :
    0 ≤ keywordScore msg node := by
  unfold keywordScore
  apply List.sum_nonneg
  intro x hx
  rw [List.mem_map] at hx
  obtain ⟨k, _, rfl⟩ := hx
  dsimp only
  split
  · norm_num
  · exact le_refl 0

lemma contextScore_nonneg (session : ConversationState) (node : ConversationNode) :
    0 ≤ contextScore session node := by
  unfold contextScore
  apply List.sum_nonneg
  intro x hx
  rw [List.mem_map] at hx
  obtain ⟨k, _, rfl⟩ := hx
  split
  · norm_num
  · exact le_refl 0

lemma tfidfScore_nonneg (tf : String → Nat → Rat) (msg : String) (i : Nat) :
    0 ≤ tfidfScore tf msg i := by
  unfold tfidfScore
  dsimp only
  split
  · rename_i h
    have h15 : (0 : Rat) ≤ 15 := by norm_num
    exact mul_nonneg (le_of_lt h) h15
  · exact le_refl 0

lemma flowBonus_nonneg (nodes : List ConversationNode) (session : ConversationState)
    (node : ConversationNode) : 0 ≤ flowBonus nodes session node := by
  unfold flowBonus
  split
  · exact le_refl 0
  · split
    · split
      · norm_num
      · exact le_refl 0
    · exact le_refl 0

/-- A trigger phrase contained in the message puts the trigger component
at 20 or more. -/
lemma triggerScore_ge_20 (msg : String) (node : ConversationNode)
    (ht : ∃ t ∈ node.triggers, includesL (lowerChars msg) (lowerChars t) = true) :
    20 ≤ triggerScore msg node := by
  obtain ⟨t, htmem, hinc⟩ := ht
  unfold triggerScore
  have hx : (20 : Rat) ∈ node.triggers.map (fun trigger =>
      if includesL (lowerChars msg) (lowerChars trigger) then (20 : Rat)
      else if (splitList (fun c => c = ' ') (lowerChars trigger)).any
          (fun word => includesL (lowerChars msg) word && word.length > 3) then (10 : Rat)
      else 0) := by
    rw [List.mem_map]
    exact ⟨t, htmem, by rw [if_pos hinc]⟩
  apply List.single_le_sum _ _ hx
  intro x hxm
  rw [List.mem_map] at hxm
  obtain ⟨u, _, rfl⟩ := hxm
  split
  · norm_num
  · split
    · norm_num
    · exact le_refl 0

/-- The additive score of a node with a matched trigger is at least 20. -/
lemma baseScore_ge_20 (tf : String → Nat → Rat) (nodes : List ConversationNode)
    (msg : String) (session : ConversationState) (node : ConversationNode) (i : Nat)
    (ht : ∃ t ∈ node.triggers, includesL (lowerChars msg) (lowerChars t) = true) :
    20 ≤ baseScore tf nodes msg session node i := by
  unfold baseScore
  have h1 := triggerScore_ge_20 msg node ht
  have h2 := keywordScore_nonneg msg node
  have h3 := contextScore_nonneg session node
  have h4 := tfidfScore_nonneg tf msg i
  have h5 := flowBonus_nonneg nodes session node
  linarith

/-- The default suppression factor preserves strict order between positive
scores. -/
lemma applyDefaultDamp_lt (node : ConversationNode) {x y : Rat} (hx : 0 < x) (hxy : x < y) :
    applyDefaultDamp node x < applyDefaultDamp node y := by
  unfold applyDefaultDamp
  by_cases hid : node.id = "default"
  · rw [if_pos ⟨hid, hx⟩, if_pos ⟨hid, lt_trans hx hxy⟩]
    have hq : (0 : Rat) < 1 / 10 := by norm_num
    exact mul_lt_mul_of_pos_right hxy hq
  · rw [if_neg (fun h => hid h.1), if_neg (fun h => hid h.1)]
    exact hxy

/-- C6: a unit whose identifier lies in the last 3 visited units scores
strictly below what the same unit scores, on the same message, in an
otherwise identical session with an empty recent-visit history — provided
one of its triggers occurs exactly in the message (as when those triggers
previously won for it) and its priority, if any, is positive. -/
theorem recency_strictly_lowers_score (tf : String → Nat → Rat)
    (nodes : List ConversationNode) (msg : String) (session : ConversationState)
    (node : ConversationNode) (i : Nat)
    (ht : ∃ t ∈ node.triggers, includesL (lowerChars msg) (lowerChars t) = true)
    (hp : node.priority = none ∨ ∃ p, node.priority = some p ∧ 0 < p)
    (hv : node.id ∈ lastN 3 session.visitedNodes) :
    scoreNode tf nodes msg session node i <
      scoreNode tf nodes msg { session with visitedNodes := [] } node i := by
  have hbase : (0 : Rat) < baseScore tf nodes msg session node i :=
    lt_of_lt_of_le (by norm_num) (baseScore_ge_20 tf nodes msg session node i ht)
  have hbase_eq : baseScore tf nodes msg { session with visitedNodes := [] } node i =
      baseScore tf nodes msg session node i := rfl
  have hppos : (0 : Rat) <
      applyPriority node (baseScore tf nodes msg session node i) := by
    unfold applyPriority
    rcases hp with hnone | ⟨p, hsome, hpos⟩
    · rw [hnone]
      exact hbase
    · rw [hsome]
      dsimp only
      rw [if_neg (ne_of_gt hpos)]
      exact mul_pos hbase hpos
  have hrec_v : applyRecency session.visitedNodes node
      (applyPriority node (baseScore tf nodes msg session node i)) =
      applyPriority node (baseScore tf nodes msg session node i) * ((7 : Rat) / 10) := by
    unfold applyRecency
    rw [if_pos]
    rw [List.contains_iff_exists_mem_beq]
    exact ⟨node.id, hv, by simp⟩
  have hrec_e : applyRecency ([] : List String) node
      (applyPriority node (baseScore tf nodes msg session node i)) =
      applyPriority node (baseScore tf nodes msg session node i) := by
    unfold applyRecency
    rw [if_neg]
    simp [lastN]
  show applyDefaultDamp node (applyRecency session.visitedNodes node
      (applyPriority node (baseScore tf nodes msg session node i))) <
    applyDefaultDamp node (applyRecency ([] : List String) node
      (applyPriority node (baseScore tf nodes msg { session with visitedNodes := [] } node i)))
  rw [hbase_eq, hrec_v, hrec_e]
  apply applyDefaultDamp_lt
  · exact mul_pos hppos (by norm_num)
  · exact mul_lt_of_lt_one_right hppos (by norm_num)

/-- Witness for C6 at a concrete input: with the trigger word present and
the unit just visited, the damped score is strictly below the undamped
one. -/
theorem recency_strictly_lowers_score_witness :
    scoreNode tfZero [c6Node] "hello" c6Session c6Node 0 <
      scoreNode tfZero [c6Node] "hello" { c6Session with visitedNodes := [] } c6Node 0 :=
  recency_strictly_lowers_score tfZero [c6Node] "hello" c6Session c6Node 0
    (by with_unfolding_all decide) (Or.inl rfl) (by with_unfolding_all decide)

/-! ### Session map and per-turn lemmas -/

/-- A freshly stored session is found again under its identifier. -/
lemma lookup_setSession (m : List (String × ConversationState)) (sessionId : String)
    (s : ConversationState) : (setSession m sessionId s).lookup sessionId = some s := by
  induction m with
  | nil => simp [setSession, List.lookup]
  | cons p rest ih =>
    obtain ⟨k, v⟩ := p
    by_cases hk : k = sessionId
    · subst hk
      simp [setSession, List.lookup]
    · have hbk : (k == sessionId) = false := by simp [hk]
      have hbk2 : (sessionId == k) = false := by
        simp
        exact fun h => hk h.symm
      simp [setSession, List.lookup, hbk, hbk2, ih]

/-- The session a turn starts from carries the stored history plus the new
user entry. -/
lemma turnSession_history (e : Engine) (sessionId userMessage : String) :
    (turnSession e sessionId userMessage).conversationHistory =
      getConversationHistory e sessionId ++
        [{ role := "user", content := userMessage, nodeId := none, usedFallback := false }] := by
  unfold turnSession getConversationHistory
  cases e.getSession sessionId <;> rfl

/-- The remote generator is invoked on a turn exactly when the winning
local score is below the threshold and the service is enabled. -/
lemma processMessage_llmCalled_iff (e : Engine) (tf : String → Nat → Rat)
    (sessionId userMessage : String) (llm : LLMOutcome) (rand : Nat) :
    (processMessage e tf sessionId userMessage llm rand).llmCalled = true ↔
      ((findBestNodeWithScore tf e.nodes userMessage
          (turnSession e sessionId userMessage)).score < e.confidenceThreshold ∧
        e.llm.isEnabled = true) := by
  unfold processMessage
  dsimp only
  split
  · rename_i h
    cases llm <;> simpa using h
  · rename_i h
    simpa using h

/-- Every branch of a turn leaves the LLM service state untouched. -/
lemma processMessage_llm_unchanged (e : Engine) (tf : String → Nat → Rat)
    (sessionId userMessage : String) (llm : LLMOutcome) (rand : Nat) :
    (processMessage e tf sessionId userMessage llm rand).engine.llm = e.llm ∧
    (processMessage e tf sessionId userMessage llm rand).engine.confidenceThreshold =
      e.confidenceThreshold ∧
    (processMessage e tf sessionId userMessage llm rand).engine.nodes = e.nodes := by
  unfold processMessage
  dsimp only
  split
  · cases llm <;> exact ⟨rfl, rfl, rfl⟩
  · exact ⟨rfl, rfl, rfl⟩

/-- Looking up the session just stored by a turn. -/
lemma getConversationHistory_set (e : Engine) (sessionId : String) (s : ConversationState) :
    getConversationHistory { e with sessions := setSession e.sessions sessionId s } sessionId =
      s.conversationHistory := by
  unfold getConversationHistory Engine.getSession
  rw [lookup_setSession]

/-- Appending a bot entry after the user entry yields the two-entry
extension of the history. -/
lemma exists_bot_append (old : List Message) (user : Message) (s : List Message)
    (bot : Message) (hs : s = (old ++ [user]) ++ [bot]) (hb : bot.role = "bot") :
    ∃ b : Message, s = old ++ [user, b] ∧ b.role = "bot" :=
  ⟨bot, by
    rw [hs, List.append_assoc]
    rfl, hb⟩

/-- Each turn appends exactly the user entry and one bot entry to the
history of its session. -/
lemma processMessage_history (e : Engine) (tf : String → Nat → Rat)
    (sessionId userMessage : String) (llm : LLMOutcome) (rand : Nat) :
    ∃ bot : Message,
      getConversationHistory (processMessage e tf sessionId userMessage llm rand).engine
          sessionId =
        getConversationHistory e sessionId ++
          [{ role := "user", content := userMessage, nodeId := none, usedFallback := false },
            bot] ∧
      bot.role = "bot" := by
  have hts := turnSession_history e sessionId userMessage
  unfold processMessage
  dsimp only
  split
  · cases llm with
    | success reply =>
      dsimp only
      exact exists_bot_append _ _ _ _
        (by rw [getConversationHistory_set]
            show (turnSession e sessionId userMessage).conversationHistory ++ _ = _
            rw [hts]) rfl
    | invalidCredential =>
      dsimp only
      exact exists_bot_append _ _ _ _
        (by rw [getConversationHistory_set]
            show (turnSession e sessionId userMessage).conversationHistory ++ _ = _
            rw [hts]) rfl
    | rateLimited =>
      dsimp only
      exact exists_bot_append _ _ _ _
        (by rw [getConversationHistory_set]
            show (turnSession e sessionId userMessage).conversationHistory ++ _ = _
            rw [hts]) rfl
    | unavailable =>
      dsimp only
      exact exists_bot_append _ _ _ _
        (by rw [getConversationHistory_set]
            show (turnSession e sessionId userMessage).conversationHistory ++ _ = _
            rw [hts]) rfl
  · dsimp only
    exact exists_bot_append _ _ _ _
      (by rw [getConversationHistory_set]
          show (turnSession e sessionId userMessage).conversationHistory ++ _ = _
          rw [hts]) rfl

/-! ### Response selection lemmas -/

/-- A uniform draw reduced modulo the pool size stays in the pool. -/
lemma getD_mod_mem {l : List String} (h : l ≠ []) (r : Nat) (d : String) :
    l.getD (r % l.length) d ∈ l := by
  have hlen : 0 < l.length := List.length_pos.mpr h
  have hm : r % l.length < l.length := Nat.mod_lt r hlen
  rw [List.getD_eq_getElem l d hm]
  exact List.getElem_mem hm

/-- An element surviving the repetition filter is not a recent reply. -/
lemma not_recent_of_mem_filter {rec l : List String} {x : String}
    (hx : x ∈ l.filter (fun r => !(rec.contains r))) : x ∉ rec := by
  rw [List.mem_filter] at hx
  intro hmem
  have hc : rec.contains x = true :=
    List.contains_iff_exists_mem_beq.mpr ⟨x, hmem, by simp⟩
  rw [hc] at hx
  exact Bool.false_ne_true hx.2

/-- The selected reply always comes from the reply list of the node. -/
lemma selectResponse_mem (node : ConversationNode) (session : ConversationState)
    (rand : Nat) (h : node.responses ≠ []) :
    selectResponse node session rand ∈ node.responses := by
  unfold selectResponse
  dsimp only
  split
  · rename_i hlen
    have hne : node.responses.filter
        (fun resp => !((recentBotReplies session).contains resp)) ≠ [] := by
      intro hnil
      rw [hnil] at hlen
      exact absurd hlen (lt_irrefl 0)
    exact List.mem_of_mem_filter (getD_mod_mem hne rand "")
  · exact getD_mod_mem h rand ""

/-! ### Session lifecycle lemmas -/

/-- A freshly created session has no history. -/
lemma createSession_history (e : Engine) (sessionId : String) :
    getConversationHistory (e.createSession sessionId).2 sessionId = [] := by
  unfold Engine.createSession getConversationHistory Engine.getSession
  dsimp only
  rw [lookup_setSession]
  rfl

/-- A reset session has no history. -/
lemma resetSession_history (e : Engine) (sessionId : String) :
    getConversationHistory (e.resetSession sessionId).2 sessionId = [] := by
  unfold Engine.resetSession Engine.createSession getConversationHistory Engine.getSession
  dsimp only
  rw [lookup_setSession]
  rfl

/-- Running a sequence of turns grows the history by exactly two entries
per turn. -/
lemma runTurns_history_length (tf : String → Nat → Rat) (sessionId : String)
    (turns : List (String × LLMOutcome × Nat)) : ∀ e : Engine,
    (getConversationHistory (runTurns tf sessionId e turns) sessionId).length =
      (getConversationHistory e sessionId).length + 2 * turns.length := by
  induction turns with
  | nil => intro e; simp [runTurns]
  | cons t rest ih =>
    intro e
    obtain ⟨msg, llm, rand⟩ := t
    show (getConversationHistory
      (runTurns tf sessionId (processMessage e tf sessionId msg llm rand).engine rest)
        sessionId).length = _
    rw [ih]
    obtain ⟨bot, hh, _⟩ := processMessage_history e tf sessionId msg llm rand
    rw [hh]
    simp [List.length_append]
    ring

/-! ### Claim theorems on turn processing -/

/-- C2: the remote generator is invoked on a turn if and only if the
winning local score is strictly below the configured confidence threshold
and the remote service is enabled and credentialed (isEnabled); in
particular a winning score at or above the threshold always takes the
local path and never calls the remote generator. -/
theorem remote_gate_iff (e : Engine) (tf : String → Nat → Rat)
    (sessionId userMessage : String) (llm : LLMOutcome) (rand : Nat) :
    (processMessage e tf sessionId userMessage llm rand).llmCalled = true ↔
      ((findBestNodeWithScore tf e.nodes userMessage
          (turnSession e sessionId userMessage)).score < e.confidenceThreshold ∧
        e.llm.isEnabled = true) :=
  processMessage_llmCalled_iff e tf sessionId userMessage llm rand

/-- C3: when the remote generator is invoked and fails (invalid
credential, rate limited, or unavailable), the turn still answers from the
reply list of the already-computed local winner, the reply is non-blank
whenever the list contains no blank reply, and the assistant history entry
records usedFallback = false.  No error escapes: processMessage is total
and the failure is absorbed inside the turn. -/
theorem remote_failure_local_reply (e : Engine) (tf : String → Nat → Rat)
    (sessionId userMessage : String) (llm : LLMOutcome) (rand : Nat)
    (hrem : (findBestNodeWithScore tf e.nodes userMessage
        (turnSession e sessionId userMessage)).score < e.confidenceThreshold ∧
      e.llm.isEnabled = true)
    (hfail : llm = .invalidCredential ∨ llm = .rateLimited ∨ llm = .unavailable)
    (hresp : (findBestNodeWithScore tf e.nodes userMessage
        (turnSession e sessionId userMessage)).node.responses ≠ [])
    (hblank : "" ∉ (findBestNodeWithScore tf e.nodes userMessage
        (turnSession e sessionId userMessage)).node.responses) :
    (processMessage e tf sessionId userMessage llm rand).llmCalled = true ∧
    (processMessage e tf sessionId userMessage llm rand).response ∈
      (findBestNodeWithScore tf e.nodes userMessage
        (turnSession e sessionId userMessage)).node.responses ∧
    (processMessage e tf sessionId userMessage llm rand).response ≠ "" ∧
    (getConversationHistory (processMessage e tf sessionId userMessage llm rand).engine
        sessionId).getLast? =
      some { role := "bot",
             content := (processMessage e tf sessionId userMessage llm rand).response,
             nodeId := some (findBestNodeWithScore tf e.nodes userMessage
               (turnSession e sessionId userMessage)).node.id,
             usedFallback := false } := by
  have hmem : ∀ s : ConversationState,
      selectResponse (findBestNodeWithScore tf e.nodes userMessage
        (turnSession e sessionId userMessage)).node s rand ∈
      (findBestNodeWithScore tf e.nodes userMessage
        (turnSession e sessionId userMessage)).node.responses :=
    fun s => selectResponse_mem _ s rand hresp
  rcases hfail with hf | hf | hf
  all_goals
    subst hf
    unfold processMessage
    dsimp only
    rw [if_pos hrem]
    dsimp only
    refine ⟨rfl, hmem _, ?_, ?_⟩
  all_goals
    first
    | (intro h0
       exact hblank (h0 ▸ hmem _))
    | (rw [getConversationHistory_set]
       exact List.getLast?_concat _)

/-- Witness for C3 at a concrete input: the high-threshold engine routes
the turn to the remote generator, the generator reports a rate limit, and
the turn still answers from the local winner with usedFallback false. -/
theorem remote_failure_local_reply_witness :
    (processMessage eRemote tfZero "s" "hello" .rateLimited 0).llmCalled = true ∧
    (processMessage eRemote tfZero "s" "hello" .rateLimited 0).response ∈
      (findBestNodeWithScore tfZero eRemote.nodes "hello"
        (turnSession eRemote "s" "hello")).node.responses ∧
    (processMessage eRemote tfZero "s" "hello" .rateLimited 0).response ≠ "" ∧
    (getConversationHistory (processMessage eRemote tfZero "s" "hello" .rateLimited 0).engine
        "s").getLast? =
      some { role := "bot",
             content := (processMessage eRemote tfZero "s" "hello" .rateLimited 0).response,
             nodeId := some (findBestNodeWithScore tfZero eRemote.nodes "hello"
               (turnSession eRemote "s" "hello")).node.id,
             usedFallback := false } :=
  remote_failure_local_reply eRemote tfZero "s" "hello" .rateLimited 0
    (by with_unfolding_all decide) (Or.inr (Or.inl rfl))
    (by with_unfolding_all decide) (by with_unfolding_all decide)

/-- C8: the response selector always returns an element of the reply list
of the winning unit; and whenever some reply is not among the last 3
assistant replies of the session, the returned reply avoids those last 3
assistant replies. -/
theorem selectResponse_spec (node : ConversationNode) (session : ConversationState)
    (rand : Nat) (h : node.responses ≠ []) :
    selectResponse node session rand ∈ node.responses ∧
    ((∃ resp ∈ node.responses, resp ∉ recentBotReplies session) →
      selectResponse node session rand ∉ recentBotReplies session) := by
  constructor
  · exact selectResponse_mem node session rand h
  · rintro ⟨resp, hr, hrnot⟩
    have hrf : resp ∈ node.responses.filter
        (fun r => !((recentBotReplies session).contains r)) := by
      rw [List.mem_filter]
      refine ⟨hr, ?_⟩
      cases hc : (recentBotReplies session).contains resp with
      | false => rfl
      | true =>
        exfalso
        rw [List.contains_iff_exists_mem_beq] at hc
        obtain ⟨a, ha, hba⟩ := hc
        rw [beq_iff_eq] at hba
        exact hrnot (hba ▸ ha)
    have hfilne : node.responses.filter
        (fun r => !((recentBotReplies session).contains r)) ≠ [] :=
      List.ne_nil_of_mem hrf
    have hlen : 0 < (node.responses.filter
        (fun r => !((recentBotReplies session).contains r))).length :=
      List.length_pos.mpr hfilne
    unfold selectResponse
    dsimp only
    rw [if_pos hlen]
    exact not_recent_of_mem_filter (getD_mod_mem hfilne rand "")

/-- Witness for C8 at a concrete input: with one of the two replies
recently used, the selector picks a reply from the list avoiding the
recent one. -/
theorem selectResponse_spec_witness :
    selectResponse greetNode c8Session 0 ∈ greetNode.responses ∧
    ((∃ resp ∈ greetNode.responses, resp ∉ recentBotReplies c8Session) →
      selectResponse greetNode c8Session 0 ∉ recentBotReplies c8Session) :=
  selectResponse_spec greetNode c8Session 0 (by with_unfolding_all decide)

/-- C9: the conversation history is strictly append-only: every turn
appends exactly one user entry followed by one assistant entry; a reset
replaces the session with a fresh empty one; and a run of n turns from a
fresh session leaves a history of exactly 2 n entries. -/
theorem history_append_only (e : Engine) (tf : String → Nat → Rat)
    (sessionId userMessage : String) (llm : LLMOutcome) (rand : Nat)
    (turns : List (String × LLMOutcome × Nat)) :
    (∃ bot : Message,
      getConversationHistory (processMessage e tf sessionId userMessage llm rand).engine
          sessionId =
        getConversationHistory e sessionId ++
          [{ role := "user", content := userMessage, nodeId := none, usedFallback := false },
            bot] ∧
      bot.role = "bot") ∧
    getConversationHistory (e.resetSession sessionId).2 sessionId = [] ∧
    (getConversationHistory (runTurns tf sessionId (e.createSession sessionId).2 turns)
        sessionId).length = 2 * turns.length := by
  refine ⟨processMessage_history e tf sessionId userMessage llm rand,
    resetSession_history e sessionId, ?_⟩
  rw [runTurns_history_length tf sessionId turns (e.createSession sessionId).2,
    createSession_history]
  simp

/-- C10: the engine is total on unknown session identifiers: history and
topic accessors return the empty list, and processMessage silently creates
a fresh session for the identifier and completes the turn, leaving a
two-entry history. -/
theorem engine_total_without_session (e : Engine) (tf : String → Nat → Rat)
    (sessionId userMessage : String) (llm : LLMOutcome) (rand : Nat)
    (h : e.getSession sessionId = none) :
    getConversationHistory e sessionId = [] ∧
    getTopicsDiscussed e sessionId = [] ∧
    ∃ s : ConversationState,
      ((processMessage e tf sessionId userMessage llm rand).engine).getSession sessionId =
        some s ∧
      s.conversationHistory.length = 2 := by
  have h1 : getConversationHistory e sessionId = [] := by
    unfold getConversationHistory
    rw [h]
  refine ⟨h1, ?_, ?_⟩
  · unfold getTopicsDiscussed
    rw [h]
  · obtain ⟨bot, hh, _⟩ := processMessage_history e tf sessionId userMessage llm rand
    rw [h1] at hh
    cases hs : ((processMessage e tf sessionId userMessage llm rand).engine).getSession
        sessionId with
    | none =>
      exfalso
      unfold getConversationHistory at hh
      rw [hs] at hh
      simp at hh
    | some s =>
      refine ⟨s, rfl, ?_⟩
      unfold getConversationHistory at hh
      rw [hs] at hh
      simp only [List.nil_append] at hh
      rw [hh]
      rfl

/-- Witness for C10 at a concrete input: the fixture engine holds no
sessions, yet both accessors answer with the empty list and a turn under
the unknown identifier completes with a fresh two-entry history. -/
theorem engine_total_without_session_witness :
    getConversationHistory eRemote "nobody" = [] ∧
    getTopicsDiscussed eRemote "nobody" = [] ∧
    ∃ s : ConversationState,
      ((processMessage eRemote tfZero "nobody" "hello" (.success "peace") 0).engine).getSession
        "nobody" = some s ∧
      s.conversationHistory.length = 2 :=
  engine_total_without_session eRemote tfZero "nobody" "hello" (.success "peace") 0 rfl

/-- C7 counterexample: the winning unit for "hello" is the greeting unit,
whose identifier is already in the visited list; after the local turn the
visited list is unchanged — the identifier is not appended again and does
not move to the tail, refuting the claim that the identifier is added even
when already present. -/
theorem visited_append_counterexample :
    (findBestNodeWithScore tfZero eLocal.nodes "hello"
      (turnSession eLocal "s" "hello")).node.id = "greeting" ∧
    (turnSession eLocal "s" "hello").visitedNodes = ["greeting"] ∧
    ((processMessage eLocal tfZero "s" "hello" .unavailable 0).engine.getSession "s").map
      ConversationState.visitedNodes = some ["greeting"] := by
  with_unfolding_all decide

/-- C7 amended: on a local-path turn the winning identifier is appended to
the visited list only when it is not already present; when it is present
the list is left unchanged (so the identifier does not move to the tail). -/
theorem visited_dedup_amended (e : Engine) (tf : String → Nat → Rat)
    (sessionId userMessage : String) (llm : LLMOutcome) (rand : Nat)
    (hlocal : ¬ ((findBestNodeWithScore tf e.nodes userMessage
        (turnSession e sessionId userMessage)).score < e.confidenceThreshold ∧
      e.llm.isEnabled = true)) :
    ∃ s : ConversationState,
      ((processMessage e tf sessionId userMessage llm rand).engine).getSession sessionId =
        some s ∧
      s.visitedNodes =
        (if !((turnSession e sessionId userMessage).visitedNodes.contains
            (findBestNodeWithScore tf e.nodes userMessage
              (turnSession e sessionId userMessage)).node.id)
         then (turnSession e sessionId userMessage).visitedNodes ++
           [(findBestNodeWithScore tf e.nodes userMessage
             (turnSession e sessionId userMessage)).node.id]
         else (turnSession e sessionId userMessage).visitedNodes) := by
  unfold processMessage
  dsimp only
  rw [if_neg hlocal]
  dsimp only
  exact ⟨_, lookup_setSession e.sessions sessionId _, rfl⟩

/-- Witness for the amended C7 at a concrete input: remote disabled, the
winner already visited, and the visited list comes back unchanged. -/
theorem visited_dedup_amended_witness :
    ∃ s : ConversationState,
      ((processMessage eLocal tfZero "s" "hello" .unavailable 0).engine).getSession "s" =
        some s ∧
      s.visitedNodes =
        (if !((turnSession eLocal "s" "hello").visitedNodes.contains
            (findBestNodeWithScore tfZero eLocal.nodes "hello"
              (turnSession eLocal "s" "hello")).node.id)
         then (turnSession eLocal "s" "hello").visitedNodes ++
           [(findBestNodeWithScore tfZero eLocal.nodes "hello"
             (turnSession eLocal "s" "hello")).node.id]
         else (turnSession eLocal "s" "hello").visitedNodes) :=
  visited_dedup_amended eLocal tfZero "s" "hello" .unavailable 0
    (by with_unfolding_all decide)

/-- C4 counterexample: after a turn in which the remote generator fails
with an invalid credential, the service state is unchanged and the very
next low-score turn still invokes the remote generator — the remote path
is not disabled for the rest of the process lifetime. -/
theorem invalid_credential_disables_counterexample :
    (processMessage eRemote tfZero "s" "hello" .invalidCredential 0).llmCalled = true ∧
    (processMessage eRemote tfZero "s" "hello" .invalidCredential 0).engine.llm = llmOn ∧
    (processMessage (processMessage eRemote tfZero "s" "hello" .invalidCredential 0).engine
      tfZero "s" "hello" (.success "peace") 0).llmCalled = true := by
  with_unfolding_all decide

/-- C4 amended: a turn whose remote call fails with an invalid credential
leaves the LLM service state untouched, so a subsequent turn whose winning
score is below the threshold invokes the remote generator again whenever
the service was enabled. -/
theorem invalid_credential_leaves_remote_enabled (e : Engine) (tf : String → Nat → Rat)
    (sessionId userMessage msg2 : String) (rand rand2 : Nat) (llm2 : LLMOutcome)
    (hlow : (findBestNodeWithScore tf
        ((processMessage e tf sessionId userMessage .invalidCredential rand).engine).nodes msg2
        (turnSession (processMessage e tf sessionId userMessage .invalidCredential rand).engine
          sessionId msg2)).score <
      ((processMessage e tf sessionId userMessage .invalidCredential rand).engine).confidenceThreshold)
    (hen : e.llm.isEnabled = true) :
    ((processMessage e tf sessionId userMessage .invalidCredential rand).engine).llm = e.llm ∧
    (processMessage ((processMessage e tf sessionId userMessage .invalidCredential rand).engine)
      tf sessionId msg2 llm2 rand2).llmCalled = true := by
  obtain ⟨hllm, hthr, hnodes⟩ :=
    processMessage_llm_unchanged e tf sessionId userMessage .invalidCredential rand
  refine ⟨hllm, ?_⟩
  rw [processMessage_llmCalled_iff]
  exact ⟨hlow, by rw [hllm]; exact hen⟩

/-- Witness for the amended C4 at a concrete input: the credential failure
leaves the service enabled and the next low-score turn calls the remote
generator. -/
theorem invalid_credential_leaves_remote_enabled_witness :
    ((processMessage eRemote tfZero "s" "hello" .invalidCredential 0).engine).llm =
      eRemote.llm ∧
    (processMessage ((processMessage eRemote tfZero "s" "hello" .invalidCredential 0).engine)
      tfZero "s" "hi" (.success "peace") 1).llmCalled = true :=
  invalid_credential_leaves_remote_enabled eRemote tfZero "s" "hello" "hi" 0 1 (.success "peace")
    (by with_unfolding_all decide) (by with_unfolding_all decide)

end Chatbot
